import Mathlib

/-!
Verification of the `jsonata-extended` extension-function library
(`src/lib/jsonata-functions.js`) against its natural-language specification.

The JavaScript code is shallowly embedded: JS values are modelled by the
inductive `JSVal` (undefined, null, booleans, integer numbers, strings, and
opaque delegate-produced objects), JS strings are Lean `String`s viewed as
their codepoint sequence `String.data` (matching the source's `[...value]`
spread), and external delegate libraries (html-to-text, uuid-encoder,
rfc5646, url parsing, moment, mustache, fold-to-ascii, and the JS `RegExp`
engine) are abstracted as function parameters, since they are out of scope
per the spec ("treated as external collaborators").
-/

namespace JsonataExt

/-- Model of the JavaScript values that can flow through the extension
functions: `undefined`, `null`, booleans, (integer) numbers, strings, and
opaque objects produced by delegate libraries, tagged for distinguishability. -/
inductive JSVal where
  | undefined : JSVal
  | null : JSVal
  | boolV (b : Bool) : JSVal
  | numV (n : Int) : JSVal
  | strV (s : String) : JSVal
  | objV (tag : String) : JSVal
deriving DecidableEq, Repr

/-- The JavaScript `typeof` operator on modelled values. -/
def JSVal.typeofStr : JSVal → String
  | .undefined => "undefined"
  | .null => "object"
  | .boolV _ => "boolean"
  | .numV _ => "number"
  | .strV _ => "string"
  | .objV _ => "object"

/-- JavaScript truthiness: `undefined`, `null`, `false`, `0` and `""` are
falsy; everything else modelled here is truthy. -/
def JSVal.truthy : JSVal → Bool
  | .undefined => false
  | .null => false
  | .boolV b => b
  | .numV n => n != 0
  | .strV s => s != ""
  | .objV _ => true

/-- JavaScript string coercion as used by template-literal interpolation
(`${x}`) in the source's error messages. -/
def JSVal.display : JSVal → String
  | .undefined => "undefined"
  | .null => "null"
  | .boolV b => if b then "true" else "false"
  | .numV n => toString n
  | .strV s => s
  | .objV _ => "[object Object]"

/-- JavaScript default-parameter application: `(value, base = d) => ...`
replaces an `undefined` argument by the default. -/
def jsDefaultArg (v d : JSVal) : JSVal :=
  if v = .undefined then d else v

/-- Caller-supplied options object for `truncate`.  Each field is `none` when
the key is absent from the JS object and `some v` when the key is present
with value `v` (possibly `undefined`, which under object spread still
overrides the default). -/
structure TruncOptions where
  length : Option JSVal := none
  omission : Option JSVal := none
  wordbreak : Option JSVal := none
  wordbreakregex : Option JSVal := none
  separator : Option JSVal := none
deriving DecidableEq, Repr

/-- The merged options `{...defaultOptions, ...options}` of `truncate`:
defaults are `length = 30`, `omission = "..."`, `separator = undefined`;
the default object has no `wordbreak`/`wordbreakregex` keys, so those are
`undefined` unless supplied. -/
structure MergedOptions where
  length : JSVal
  omission : JSVal
  wordbreak : JSVal
  wordbreakregex : JSVal
  separator : JSVal
deriving DecidableEq, Repr

/-- Object-spread merge of the caller options over `truncate`'s defaults. -/
def mergeOptions (o : TruncOptions) : MergedOptions where
  length := o.length.getD (.numV 30)
  omission := o.omission.getD (.strV "...")
  wordbreak := o.wordbreak.getD .undefined
  wordbreakregex := o.wordbreakregex.getD .undefined
  separator := o.separator.getD .undefined

/-- The ordered option-type checks of `truncate` (source lines 633-663):
returns the message of the first failing check, or `none` when the merged
options pass validation.  Note the source guards the `wordbreak` and
`wordbreakregex` checks by JS truthiness of the value itself. -/
def validationError (m : MergedOptions) : Option String :=
  if m.length.typeofStr != "number" then
    some ("Expected a number. Received options.length=" ++ m.length.display
      ++ " Type: " ++ m.length.typeofStr)
  else if m.omission.typeofStr != "string" then
    some ("Expected a string. Received options.omission=" ++ m.omission.display
      ++ " Type: " ++ m.omission.typeofStr)
  else if m.wordbreak.truthy && (m.wordbreak.typeofStr != "string") then
    some ("Expected a string. Received options.wordbreak=" ++ m.wordbreak.display
      ++ " Type: " ++ m.wordbreak.typeofStr)
  else if m.wordbreakregex.truthy && (m.wordbreakregex.typeofStr != "string") then
    some ("Expected a string. Received options.wordbreakregex=" ++ m.wordbreakregex.display
      ++ " Type: " ++ m.wordbreakregex.typeofStr)
  else
    none

/-- JavaScript `array.slice(0, e)` on a codepoint array: a negative end
index counts back from the end of the array (clipping at zero). -/
def jsSlice (xs : List Char) (e : Int) : List Char :=
  if e < 0 then xs.take (((xs.length : Int) + e).toNat) else xs.take e.toNat

/-- Surrogate-pair normalisation (source lines 677-678): each codepoint
outside the Basic Multilingual Plane (encoded in JS as a surrogate pair,
matched by `([\uD800-\uDBFF])([\uDC00-\uDFFF])`) is replaced by the single
character U+200D before word-break matching. -/
def normChar (c : Char) : Char :=
  if 0x10000 ≤ c.toNat then Char.ofNat 0x200D else c

/-- Abstract model of a compiled global JS regular expression (the
`new RegExp(source, 'gu')` delegate): `exec s start` searches `s` from
position `start` and returns `some (i, n)` for a match of length `n` at
index `i`, or `none` when there is no further match. -/
structure GMatcher where
  exec : List Char → Nat → Option (Nat × Nat)

/-- Bounds every real JS regex satisfies: a match found from `start` lies at
or after `start` and ends within the string. -/
def GMatcher.Valid (m : GMatcher) : Prop :=
  ∀ s start i n, m.exec s start = some (i, n) → start ≤ i ∧ i + n ≤ s.length

/-- A matcher none of whose matches is empty (the regex cannot match the
empty string), so the `g`-mode `lastIndex` strictly advances. -/
def GMatcher.Progressive (m : GMatcher) : Prop :=
  ∀ s start i n, m.exec s start = some (i, n) → 1 ≤ n

/-- The `do { matched = separator.exec(...) } while (matched)` loop of
`truncate` (source lines 686-690), with the `g`-mode `lastIndex` state made
explicit.  `lastMatch` starts at `-1` and is updated to each match's index;
`none` means the given fuel was exhausted before `exec` returned `null`
(the loop did not terminate within `fuel` iterations). -/
def execLoop (m : GMatcher) (s : List Char) : Nat → Nat → Int → Option Int
  | 0, _, _ => none
  | fuel + 1, lastIndex, lastMatch =>
    match m.exec s lastIndex with
    | none => some lastMatch
    | some (i, n) => execLoop m s fuel (i + n) (i : Int)

/-- The sequence of match indices the `g`-mode exec chain visits, starting
from position `start` (specification of "the matches found, in order"). -/
def matchChain (m : GMatcher) (s : List Char) : Nat → Nat → List Nat
  | 0, _ => []
  | fuel + 1, start =>
    match m.exec s start with
    | none => []
    | some (i, n) => i :: matchChain m s fuel (i + n)

/-- Helper for `Array.prototype.lastIndexOf`: last index of `c` in `xs`,
accumulating over positions starting at `i`, with `-1` when absent. -/
def lastIdxAux (c : Char) : List Char → Nat → Int → Int
  | [], _, acc => acc
  | x :: rest, i, acc => lastIdxAux c rest (i + 1) (if x = c then (i : Int) else acc)

/-- Last index of the character `c` in `xs`, or `-1` when absent. -/
def lastIndexOfChar (xs : List Char) (c : Char) : Int :=
  lastIdxAux c xs 0 (-1)

/-- The source's `firstSlice.lastIndexOf(separator)`: `firstSlice` is an
array of one-codepoint strings, compared to the separator with `===`, so a
separator that is not exactly one codepoint never matches. -/
def arrLastIndexOf (xs : List Char) (sep : String) : Int :=
  match sep.data with
  | [c] => lastIndexOfChar xs c
  | _ => -1

/-- Result of a `truncate` call: undefined passthrough, a thrown
`TypeError`, a thrown generic `Error`, or a returned string. -/
inductive TruncResult where
  | undefined : TruncResult
  | typeError (msg : String) : TruncResult
  | jsError (msg : String) : TruncResult
  | ok (s : String) : TruncResult
deriving DecidableEq, Repr

/-- The `wordbreakregex` branch of `truncate` (source lines 682-694): when
the merged `wordbreakregex` is truthy and a string, compile it (`none` from
`compile` models the `RegExp` constructor throwing, rethrown as the generic
processing error) and run the exec loop over the normalised prefix;
otherwise the last-match index stays `-1`.  An overall `none` means the
exec loop exhausted its fuel (did not terminate). -/
def regexLastMatch : JSVal → List Char → (String → Option GMatcher) → Nat →
    Option (Except String Int)
  | .strV src, normalised, compile, fuel =>
    if (JSVal.strV src).truthy && ((JSVal.strV src).typeofStr == "string") then
      match compile src with
      | none => some (.error "Error Processing workdbreakregex.")
      | some gm => (execLoop gm normalised fuel 0 (-1)).map Except.ok
    else some (.ok (-1))
  | _, _, _, _ => some (.ok (-1))

/-- The literal `wordbreak` branch of `truncate` (source lines 696-699):
only when the merged `wordbreak` is truthy, a string, and the regex branch
left `lastMatch === -1`, search `firstSlice` for the last occurrence of the
separator. -/
def literalLastMatch : JSVal → List Char → Int → Int
  | .strV wb, firstSlice, lm0 =>
    if (JSVal.strV wb).truthy && ((JSVal.strV wb).typeofStr == "string") && (lm0 == -1) then
      arrLastIndexOf firstSlice wb
    else lm0
  | _, _, lm0 => lm0

/-- Core of `truncate` (source lines 665-705), entered after option
validation with the merged numeric `length` `n`, string `omission` `om`, and
the merged `wordbreak`/`wordbreakregex` values.  `compile` models
`new RegExp(src, 'gu')` and `fuel` bounds the exec loop; an overall `none`
means the exec loop did not terminate. -/
def truncateCore (v : String) (n : Int) (om : String) (wordbreak wordbreakregex : JSVal)
    (compile : String → Option GMatcher) (fuel : Nat) : Option TruncResult :=
  let unicodeArray := v.data
  if (unicodeArray.length : Int) ≤ n then some (.ok v)
  else
    let endslice : Int := n - (om.data.length : Int)
    let firstSlice := jsSlice unicodeArray endslice
    let normalised := firstSlice.map normChar
    match regexLastMatch wordbreakregex normalised compile fuel with
    | none => none
    | some (.error e) => some (.jsError e)
    | some (.ok lm0) =>
      let lastMatch := literalLastMatch wordbreak firstSlice lm0
      let finalSlice := if lastMatch != -1 then jsSlice unicodeArray lastMatch else firstSlice
      some (.ok (String.mk (finalSlice ++ om.data)))

/-- The `truncate` extension function (source lines 621-705): undefined
passthrough, option merge, ordered option validation, then the truncation
core.  A defined non-string value reaches the `[...value]` spread and
throws (modelled by a generic TypeError). -/
def truncate (value : JSVal) (options : TruncOptions)
    (compile : String → Option GMatcher) (fuel : Nat) : Option TruncResult :=
  if value = .undefined then some .undefined
  else
    let m := mergeOptions options
    match validationError m with
    | some msg => some (.typeError msg)
    | none =>
      match value, m.length, m.omission with
      | .strV v, .numV n, .strV om =>
        truncateCore v n om m.wordbreak m.wordbreakregex compile fuel
      | _, _, _ => some (.typeError "value is not iterable")

/-- Errors surfaced by the extension functions, with provenance:
`typeError`/`error` are errors the library itself constructs and throws;
`delegateRaw` is a delegate library's own exception escaping uncaught
(its payload is the delegate's raw message). -/
inductive JSErr where
  | typeError (msg : String) : JSErr
  | error (msg : String) : JSErr
  | delegateRaw (msg : String) : JSErr
deriving DecidableEq, Repr

deriving instance DecidableEq for Except

/-- Outcome of calling an extension function: a thrown error or a value. -/
abbrev JSOut := Except JSErr JSVal

/-- The `htmltotext` function (source lines 57-72): undefined passthrough,
then delegate to the html-to-text `convert` library on the trimmed value and
the merged local options (trimming and option merging happen inside the
abstracted external call). -/
def htmltotext (value options : JSVal) (convert : JSVal → JSVal → Except String JSVal) : JSOut :=
  if value = .undefined then .ok .undefined
  else (convert value options).mapError .delegateRaw

/-- The nine base names accepted by the uuid encoder/decoder wrappers
(source lines 102-112 and 168-178). -/
def validBasex : List String :=
  ["base2", "base10", "base16", "base32", "base36", "base58", "base62", "base64", "base64url"]

/-- The `Invalid basex` message: `validBasex.join(',')` appended to the
fixed prefix. -/
def invalidBasexMsg : String :=
  "Invalid basex. Valid values: " ++ String.intercalate "," validBasex

/-- The `validBasex.includes(base)` membership test: `includes` compares
with `===`, so only a string can be a member. -/
def isValidBasexName (b : JSVal) : Bool :=
  match b with
  | .strV s => validBasex.contains s
  | _ => false

/-- The `shortenUuid` function (source lines 93-119): undefined passthrough,
UUID-format validation via the `uuid-validate` delegate, base-name check,
then the `uuid-encoder` encode delegate (whose failures are not caught). -/
def shortenUuid (value base : JSVal) (uuidvalidate : JSVal → Bool)
    (encode : JSVal → JSVal → Except String JSVal) : JSOut :=
  if value = .undefined then .ok .undefined
  else
    let base := jsDefaultArg base (.strV "base36")
    if !uuidvalidate value then .error (.error "Invalid UUID")
    else if !isValidBasexName base then .error (.error invalidBasexMsg)
    else (encode base value).mapError .delegateRaw

/-- The `encodeUuid` function (source lines 140-142): applies its own
`base36` default, then delegates wholesale to `shortenUuid`. -/
def encodeUuid (value base : JSVal) (uuidvalidate : JSVal → Bool)
    (encode : JSVal → JSVal → Except String JSVal) : JSOut :=
  shortenUuid value (jsDefaultArg base (.strV "base36")) uuidvalidate encode

/-- The `unshortenUuid` function (source lines 163-187): undefined
passthrough, base-name check, then the `uuid-encoder` decode delegate with
no try/catch and no validation of `value` itself. -/
def unshortenUuid (value base : JSVal)
    (decode : JSVal → JSVal → Except String JSVal) : JSOut :=
  if value = .undefined then .ok .undefined
  else
    let base := jsDefaultArg base (.strV "base36")
    if !isValidBasexName base then .error (.error invalidBasexMsg)
    else (decode base value).mapError .delegateRaw

/-- The `decodeUuid` function (source lines 208-210): applies its own
`base36` default, then delegates wholesale to `unshortenUuid`. -/
def decodeUuid (value base : JSVal)
    (decode : JSVal → JSVal → Except String JSVal) : JSOut :=
  unshortenUuid value (jsDefaultArg base (.strV "base36")) decode

/-- Result of the rfc5646 `new LanguageTag(value)` delegate: its `invalid`
flag, its optional `region` subtag, and its `language` subtag. -/
structure LangTag where
  invalid : Bool
  region : Option String
  language : String
deriving DecidableEq, Repr

/-- The `languageInfo` function (source lines 333-351): undefined
passthrough, parse via the rfc5646 delegate, throw the descriptive error on
an invalid tag, else assemble `{rfc5646, region, language}` from the
countries-list delegate lookups (the response object is modelled by its
rendered field values). -/
def languageInfo (value : JSVal) (mkTag : JSVal → LangTag)
    (countries : String → JSVal) (languagesAll : String → JSVal) : JSOut :=
  if value = .undefined then .ok .undefined
  else
    let langTag := mkTag value
    if langTag.invalid then .error (.error ("Invalid RFC5646 Tag. Value: " ++ value.display))
    else
      let region := match langTag.region with
        | some r => countries r
        | none => .null
      let language := languagesAll langTag.language
      .ok (.objV ("rfc5646=" ++ value.display ++ ";region=" ++ region.display
        ++ ";language=" ++ language.display))

/-- The `parseUrl` function (source lines 395-406): undefined passthrough,
then the whole `new URL` / `url-parse` / JSON round-trip pipeline (one
abstracted fallible delegate) inside a try/catch that rethrows every
failure as `Error('Invalid URL')`. -/
def parseUrl (value : JSVal) (urlPipeline : JSVal → Except String JSVal) : JSOut :=
  if value = .undefined then .ok .undefined
  else
    match urlPipeline value with
    | .ok v => .ok v
    | .error _ => .error (.error "Invalid URL")

/-- The `parsePath` function (source lines 439-446): undefined passthrough,
then the node `path.parse` + JSON round-trip delegate, uncaught. -/
def parsePath (value : JSVal) (pathParse : JSVal → Except String JSVal) : JSOut :=
  if value = .undefined then .ok .undefined
  else (pathParse value).mapError .delegateRaw

/-- The `moment` function (source lines 471-473): forwards its whole
argument list to the momentjs delegate, with no undefined guard. -/
def moment (args : List JSVal) (momentjs : List JSVal → Except String JSVal) : JSOut :=
  (momentjs args).mapError .delegateRaw

/-- The `momentDuration` function (source lines 499-501): forwards its whole
argument list to the momentjs duration delegate, with no undefined guard. -/
def momentDuration (args : List JSVal)
    (momentjsDuration : List JSVal → Except String JSVal) : JSOut :=
  (momentjsDuration args).mapError .delegateRaw

/-- The `mustache` function (source lines 527-537): undefined value gives
undefined, undefined template gives the value back, else the mustache
render delegate on `(template, value)`. -/
def mustache (value template : JSVal)
    (render : JSVal → JSVal → Except String JSVal) : JSOut :=
  if value = .undefined then .ok .undefined
  else if template = .undefined then .ok value
  else (render template value).mapError .delegateRaw

/-- Caller-supplied options for `unicodeToASCII`: `none` when the
`replacement` key is absent. -/
structure UAsciiOptions where
  replacement : Option JSVal := none
deriving DecidableEq, Repr

/-- The `unicodeToASCII` function (source lines 573-585): undefined
passthrough, merge `{replacement: undefined}` under the options, then pick
the replacing or maintaining fold-to-ascii delegate. -/
def unicodeToASCII (value : JSVal) (options : UAsciiOptions)
    (foldReplacing : JSVal → JSVal → JSVal) (foldMaintaining : JSVal → JSVal) : JSOut :=
  if value = .undefined then .ok .undefined
  else
    let replacement := options.replacement.getD .undefined
    if replacement ≠ .undefined then .ok (foldReplacing value replacement)
    else .ok (foldMaintaining value)

/-- Identifier of each extension function the registry binds. -/
inductive FnId where
  | htmltotext | shortenUuid | unshortenUuid | encodeUuid | decodeUuid
  | truncate | languageInfo | parseUrl | parsePath | moment
  | momentDuration | mustache | unicodeToASCII
deriving DecidableEq, Repr

/-- One `expression.registerFunction(name, fn, signature)` call: the bound
name, the implementation it wraps, and the declared signature string. -/
structure RegEntry where
  name : String
  fn : FnId
  signature : String
deriving DecidableEq, Repr

/-- The host JSONata expression object as far as registration observes it:
whether it exposes a `registerFunction` capability. -/
structure ExpressionHost where
  hasRegisterFunction : Bool
deriving DecidableEq, Repr

/-- The ordered registration calls `registerWithJSONATA` performs on a valid
host (source lines 728-784), with the exact names and signature strings. -/
def registrations : List RegEntry :=
  [ ⟨"htmltotext", .htmltotext, "<s?o?:s>"⟩,
    ⟨"shortenUuid", .shortenUuid, "<s?s?:s>"⟩,
    ⟨"unshortenUuid", .unshortenUuid, "<s?s?:s>"⟩,
    ⟨"encodeUuid", .encodeUuid, "<s?s?:s>"⟩,
    ⟨"decodeUuid", .decodeUuid, "<s?s?:s>"⟩,
    ⟨"truncate", .truncate, "<s?o?:s>"⟩,
    ⟨"languageInfo", .languageInfo, "<s?:o>"⟩,
    ⟨"parseUrl", .parseUrl, "<s?:o>"⟩,
    ⟨"parsePath", .parsePath, "<s?:o>"⟩,
    ⟨"moment", .moment, "<(sna)?(sa)?(sb)?b?:o>"⟩,
    ⟨"momentDuration", .momentDuration, "<(sno)?s?:o>"⟩,
    ⟨"mustache", .mustache, "<o?s?:s>"⟩,
    ⟨"unicodeToASCII", .unicodeToASCII, "<s?o?:s>"⟩ ]

/-- The `registerWithJSONATA` entry point (source lines 724-785): a missing
expression or one without a `registerFunction` capability throws
`TypeError('Invalid JSONata Expression')`; otherwise every registration
call in `registrations` is performed in order. -/
def registerWithJSONATA (expression : Option ExpressionHost) :
    Except JSErr (List RegEntry) :=
  match expression with
  | none => .error (.typeError "Invalid JSONata Expression")
  | some e =>
    if !e.hasRegisterFunction then .error (.typeError "Invalid JSONata Expression")
    else .ok registrations

/-- First index at or after `i` (the position of the head of `xs` within the
full string) whose character satisfies `p`. -/
def findFromAux (p : Char → Bool) : List Char → Nat → Option Nat
  | [], _ => none
  | c :: rest, i => if p c then some i else findFromAux p rest (i + 1)

/-- First index ≥ `start` in `s` whose character satisfies `p`. -/
def findFrom (p : Char → Bool) (s : List Char) (start : Nat) : Option Nat :=
  findFromAux p (s.drop start) start

/-- Concrete matcher modelling a single-character-class regex such as
`/[\s]/gu`: each match is one character satisfying `p`. -/
def charClassMatcher (p : Char → Bool) : GMatcher where
  exec := fun s start => (findFrom p s start).map (fun i => (i, 1))

/-- Concrete matcher modelling a nullable regex such as `/x*/gu` on input
containing no `x`: from any in-range position it yields the empty match at
that very position, so `lastIndex` never advances. -/
def emptyStarMatcher : GMatcher where
  exec := fun s start => if start ≤ s.length then some (start, 0) else none

/-- Termination of a `truncate` call, over all fuels for the exec loop: some
fuel makes the call return (the JS function, which has no fuel, terminates
exactly when the modelled loop does for a large enough fuel). -/
def truncateTerminates (value : JSVal) (options : TruncOptions)
    (compile : String → Option GMatcher) : Prop :=
  ∃ fuel, truncate value options compile fuel ≠ none

lemma typeofStr_eq_number {x : JSVal} (h : x.typeofStr = "number") : ∃ n, x = .numV n := by
  cases x <;> simp_all [JSVal.typeofStr]

lemma typeofStr_eq_string {x : JSVal} (h : x.typeofStr = "string") : ∃ s, x = .strV s := by
  cases x <;> simp_all [JSVal.typeofStr]

lemma execLoop_range (gm : GMatcher) (hv : gm.Valid) (s : List Char) :
    ∀ fuel lastIndex lm out, (lm = -1 ∨ (0 ≤ lm ∧ lm ≤ (s.length : Int))) →
      execLoop gm s fuel lastIndex lm = some out →
      out = -1 ∨ (0 ≤ out ∧ out ≤ (s.length : Int)) := by
  intro fuel
  induction fuel with
  | zero =>
    intro lastIndex lm out hlm h
    simp [execLoop] at h
  | succ f ih =>
    intro lastIndex lm out hlm h
    rw [execLoop] at h
    cases hexec : gm.exec s lastIndex with
    | none =>
      rw [hexec] at h
      simp only [Option.some.injEq] at h
      exact h ▸ hlm
    | some pair =>
      obtain ⟨i, n⟩ := pair
      rw [hexec] at h
      have hb := hv s lastIndex i n hexec
      exact ih (i + n) (i : Int) out (Or.inr ⟨by positivity, by exact_mod_cast le_trans (Nat.le_add_right i n) hb.2⟩) h

lemma lastIdxAux_range (c : Char) :
    ∀ (xs : List Char) (i : Nat) (acc : Int),
      lastIdxAux c xs i acc = acc ∨
        ((i : Int) ≤ lastIdxAux c xs i acc ∧ lastIdxAux c xs i acc < (i : Int) + xs.length) := by
  intro xs
  induction xs with
  | nil => intro i acc; left; rfl
  | cons x rest ih =>
    intro i acc
    simp only [lastIdxAux, List.length_cons]
    rcases ih (i + 1) (if x = c then (i : Int) else acc) with h | h
    · rw [h]
      by_cases hx : x = c
      · rw [if_pos hx]; right; constructor
        · exact le_refl _
        · push_cast; omega
      · rw [if_neg hx]; left; rfl
    · right
      refine ⟨le_trans (by push_cast; omega) h.1, ?_⟩
      have := h.2
      push_cast at this ⊢
      omega

lemma lastIndexOfChar_range (xs : List Char) (c : Char) :
    lastIndexOfChar xs c = -1 ∨
      (0 ≤ lastIndexOfChar xs c ∧ lastIndexOfChar xs c < (xs.length : Int)) := by
  have := lastIdxAux_range c xs 0 (-1)
  simpa [lastIndexOfChar] using this

lemma arrLastIndexOf_range (xs : List Char) (sep : String) :
    arrLastIndexOf xs sep = -1 ∨
      (0 ≤ arrLastIndexOf xs sep ∧ arrLastIndexOf xs sep < (xs.length : Int)) := by
  unfold arrLastIndexOf
  split
  · exact lastIndexOfChar_range xs _
  · left; rfl

lemma jsSlice_of_nonneg (xs : List Char) (e : Int) (he : 0 ≤ e) :
    jsSlice xs e = xs.take e.toNat := by
  unfold jsSlice
  rw [if_neg (by omega)]

lemma jsSlice_length_le (xs : List Char) (e : Int) (he : 0 ≤ e) :
    ((jsSlice xs e).length : Int) ≤ e := by
  rw [jsSlice_of_nonneg xs e he, List.length_take]
  have h1 : min e.toNat xs.length ≤ e.toNat := min_le_left _ _
  calc ((min e.toNat xs.length : Nat) : Int) ≤ (e.toNat : Int) := by exact_mod_cast h1
    _ = e := Int.toNat_of_nonneg he

lemma jsSlice_length_eq (xs : List Char) (e : Int) (he : 0 ≤ e)
    (hle : e ≤ (xs.length : Int)) : ((jsSlice xs e).length : Int) = e := by
  rw [jsSlice_of_nonneg xs e he, List.length_take]
  have h1 : e.toNat ≤ xs.length := by omega
  rw [min_eq_left h1]
  exact Int.toNat_of_nonneg he

lemma regexLastMatch_ok_range (wbr : JSVal) (normalised : List Char)
    (compile : String → Option GMatcher) (fuel : Nat) (lm : Int)
    (hvalid : ∀ src gm, compile src = some gm → gm.Valid)
    (h : regexLastMatch wbr normalised compile fuel = some (.ok lm)) :
    lm = -1 ∨ (0 ≤ lm ∧ lm ≤ (normalised.length : Int)) := by
  cases wbr with
  | strV src =>
    rw [regexLastMatch] at h
    by_cases hguard : ((JSVal.strV src).truthy && ((JSVal.strV src).typeofStr == "string")) = true
    · rw [if_pos hguard] at h
      cases hc : compile src with
      | none => rw [hc] at h; simp at h
      | some gm =>
        rw [hc] at h
        change (execLoop gm normalised fuel 0 (-1)).map Except.ok = some (Except.ok lm) at h
        cases he : execLoop gm normalised fuel 0 (-1) with
        | none => rw [he] at h; simp at h
        | some out =>
          rw [he] at h
          simp only [Option.map_some', Option.some.injEq, Except.ok.injEq] at h
          subst h
          exact execLoop_range gm (hvalid src gm hc) normalised fuel 0 (-1) out (Or.inl rfl) he
    · rw [if_neg hguard] at h
      simp only [Option.some.injEq, Except.ok.injEq] at h
      left; exact h.symm
  | undefined => simp [regexLastMatch] at h; left; exact h.symm
  | null => simp [regexLastMatch] at h; left; exact h.symm
  | boolV b => simp [regexLastMatch] at h; left; exact h.symm
  | numV n => simp [regexLastMatch] at h; left; exact h.symm
  | objV t => simp [regexLastMatch] at h; left; exact h.symm

lemma literalLastMatch_range (wb : JSVal) (firstSlice : List Char) (lm0 : Int) :
    literalLastMatch wb firstSlice lm0 = lm0 ∨
      (0 ≤ literalLastMatch wb firstSlice lm0 ∧
        literalLastMatch wb firstSlice lm0 < (firstSlice.length : Int)) := by
  cases wb with
  | strV wbs =>
    rw [literalLastMatch]
    by_cases hc :
        ((JSVal.strV wbs).truthy && ((JSVal.strV wbs).typeofStr == "string") && (lm0 == -1)) = true
    · rw [if_pos hc]
      have hlm0 : lm0 = -1 := by
        simp only [Bool.and_eq_true, beq_iff_eq] at hc
        exact hc.2
      rcases arrLastIndexOf_range firstSlice wbs with h | h
      · rw [h, hlm0]; left; rfl
      · right; exact h
    · rw [if_neg hc]; left; rfl
  | undefined => left; rfl
  | null => left; rfl
  | boolV b => left; rfl
  | numV n => left; rfl
  | objV t => left; rfl

lemma validationError_none_inv {m : MergedOptions} (h : validationError m = none) :
    m.length.typeofStr = "number" ∧ m.omission.typeofStr = "string" ∧
      ¬(m.wordbreak.truthy = true ∧ m.wordbreak.typeofStr ≠ "string") ∧
      ¬(m.wordbreakregex.truthy = true ∧ m.wordbreakregex.typeofStr ≠ "string") := by
  unfold validationError at h
  split at h
  · exact absurd h (by simp)
  · split at h
    · exact absurd h (by simp)
    · split at h
      · exact absurd h (by simp)
      · split at h
        · exact absurd h (by simp)
        · rename_i h1 h2 h3 h4
          refine ⟨by simpa using h1, by simpa using h2, ?_, ?_⟩
          · rintro ⟨ha, hb⟩
            exact h3 (by simp [ha, bne_iff_ne, hb])
          · rintro ⟨ha, hb⟩
            exact h4 (by simp [ha, bne_iff_ne, hb])

lemma truncate_of_validationError_some (v : String) (opts : TruncOptions)
    (compile : String → Option GMatcher) (fuel : Nat) (msg : String)
    (h : validationError (mergeOptions opts) = some msg) :
    truncate (.strV v) opts compile fuel = some (.typeError msg) := by
  unfold truncate
  rw [if_neg (by simp)]
  simp only [h]

lemma emptyStar_execLoop_none (s : List Char) :
    ∀ fuel start lm, start ≤ s.length → execLoop emptyStarMatcher s fuel start lm = none := by
  intro fuel
  induction fuel with
  | zero => intro start lm h; rfl
  | succ f ih =>
    intro start lm h
    rw [execLoop]
    have hexec : emptyStarMatcher.exec s start = some (start, 0) := by
      simp [emptyStarMatcher, h]
    rw [hexec]
    show execLoop emptyStarMatcher s f (start + 0) (start : Int) = none
    exact ih (start + 0) (start : Int) (by simpa using h)

lemma getLastD_map_cons (a : Nat) (l : List Nat) (d : Int) :
    (((a :: l).getLast?).map Int.ofNat).getD d = ((l.getLast?).map Int.ofNat).getD (Int.ofNat a) := by
  cases l with
  | nil => rfl
  | cons b bs =>
    rw [List.getLast?_cons_cons]
    have hs : ((b :: bs).getLast?).isSome := by
      rw [List.getLast?_isSome]
      simp
    obtain ⟨x, hx⟩ := Option.isSome_iff_exists.mp hs
    rw [hx]
    rfl

lemma execLoop_eq_chain (gm : GMatcher) (s : List Char) (hv : gm.Valid) (hp : gm.Progressive) :
    ∀ fuel start lm, s.length + 1 ≤ fuel + start → 1 ≤ fuel →
      execLoop gm s fuel start lm =
        some ((((matchChain gm s fuel start).getLast?).map Int.ofNat).getD lm) := by
  intro fuel
  induction fuel with
  | zero => intro start lm hb h1; exact absurd h1 (by omega)
  | succ f ih =>
    intro start lm hb h1
    rw [execLoop, matchChain]
    cases hexec : gm.exec s start with
    | none => simp
    | some pair =>
      obtain ⟨i, n⟩ := pair
      have hbounds := hv s start i n hexec
      have hn := hp s start i n hexec
      have hf1 : 1 ≤ f := by omega
      have hb' : s.length + 1 ≤ f + (i + n) := by omega
      show execLoop gm s f (i + n) (i : Int) =
        some ((((i :: matchChain gm s f (i + n)).getLast?).map Int.ofNat).getD lm)
      rw [ih (i + n) (i : Int) hb' hf1]
      exact congrArg some (getLastD_map_cons i (matchChain gm s f (i + n)) lm).symm

lemma findFromAux_bounds (p : Char → Bool) :
    ∀ (xs : List Char) (i j : Nat), findFromAux p xs i = some j → i ≤ j ∧ j < i + xs.length := by
  intro xs
  induction xs with
  | nil => intro i j h; simp [findFromAux] at h
  | cons c rest ih =>
    intro i j h
    rw [findFromAux] at h
    by_cases hp2 : p c = true
    · rw [if_pos hp2] at h
      simp only [Option.some.injEq] at h
      subst h
      simp [List.length_cons]
    · rw [if_neg hp2] at h
      have := ih (i + 1) j h
      simp only [List.length_cons]
      omega

lemma charClassMatcher_valid (p : Char → Bool) : (charClassMatcher p).Valid := by
  intro s start i n h
  simp only [charClassMatcher, findFrom] at h
  cases hf : findFromAux p (s.drop start) start with
  | none => rw [hf] at h; simp at h
  | some j =>
    rw [hf] at h
    simp only [Option.map_some', Option.some.injEq, Prod.mk.injEq] at h
    obtain ⟨rfl, rfl⟩ := h
    have hb := findFromAux_bounds p (s.drop start) start j hf
    have hd : (s.drop start).length = s.length - start := List.length_drop start s
    constructor
    · exact hb.1
    · omega

lemma charClassMatcher_progressive (p : Char → Bool) : (charClassMatcher p).Progressive := by
  intro s start i n h
  simp only [charClassMatcher, findFrom] at h
  cases hf : findFromAux p (s.drop start) start with
  | none => rw [hf] at h; simp at h
  | some j =>
    rw [hf] at h
    simp only [Option.map_some', Option.some.injEq, Prod.mk.injEq] at h
    omega

lemma truncate_strV_eq (v : String) (opts : TruncOptions)
    (compile : String → Option GMatcher) (fuel : Nat) (n : Int) (om : String)
    (hL : (mergeOptions opts).length = .numV n)
    (hO : (mergeOptions opts).omission = .strV om)
    (hval : validationError (mergeOptions opts) = none) :
    truncate (.strV v) opts compile fuel =
      truncateCore v n om (mergeOptions opts).wordbreak
        (mergeOptions opts).wordbreakregex compile fuel := by
  unfold truncate
  rw [if_neg (by simp)]
  simp only [hval, hL, hO]

lemma truncateCore_of_regex (v : String) (n : Int) (om : String) (wb wbr : JSVal)
    (compile : String → Option GMatcher) (fuel : Nat) (lm : Int)
    (hgt : ¬((v.data.length : Int) ≤ n))
    (hreg : regexLastMatch wbr
      ((jsSlice v.data (n - (om.data.length : Int))).map normChar) compile fuel
      = some (.ok lm)) :
    truncateCore v n om wb wbr compile fuel =
      some (.ok (String.mk
        ((if literalLastMatch wb (jsSlice v.data (n - (om.data.length : Int))) lm != -1
          then jsSlice v.data (literalLastMatch wb (jsSlice v.data (n - (om.data.length : Int))) lm)
          else jsSlice v.data (n - (om.data.length : Int))) ++ om.data))) := by
  simp only [truncateCore]
  rw [if_neg hgt, hreg]

lemma truncateCore_bound (v : String) (n : Int) (om : String) (wb wbr : JSVal)
    (compile : String → Option GMatcher) (fuel : Nat) (r : String)
    (hvalid : ∀ src gm, compile src = some gm → gm.Valid)
    (hcount : n < (v.data.length : Int))
    (homlen : (om.data.length : Int) ≤ n)
    (hrun : truncateCore v n om wb wbr compile fuel = some (.ok r)) :
    (r.data.length : Int) ≤ n ∧ om.data.IsSuffix r.data ∧ r.data.length ≤ v.data.length := by
  simp only [truncateCore] at hrun
  rw [if_neg (by omega)] at hrun
  set endslice := n - (om.data.length : Int) with hend
  have hend0 : 0 ≤ endslice := by omega
  have hendlt : endslice < (v.data.length : Int) := by omega
  set firstSlice := jsSlice v.data endslice with hfs
  have hfsLen : (firstSlice.length : Int) = endslice :=
    jsSlice_length_eq v.data endslice hend0 (le_of_lt hendlt)
  cases hreg : regexLastMatch wbr (firstSlice.map normChar) compile fuel with
  | none => rw [hreg] at hrun; exact absurd hrun (by simp)
  | some res =>
    rw [hreg] at hrun
    cases res with
    | error e => exact absurd hrun (by simp)
    | ok lm0 =>
      have hlm0 := regexLastMatch_ok_range wbr (firstSlice.map normChar) compile fuel lm0
        hvalid hreg
      rw [List.length_map] at hlm0
      change some (TruncResult.ok (String.mk
        ((if literalLastMatch wb firstSlice lm0 != -1
          then jsSlice v.data (literalLastMatch wb firstSlice lm0)
          else firstSlice) ++ om.data))) = some (TruncResult.ok r) at hrun
      set lastMatch := literalLastMatch wb firstSlice lm0 with hlmdef
      have hrange : lastMatch = -1 ∨ (0 ≤ lastMatch ∧ lastMatch ≤ endslice) := by
        rcases literalLastMatch_range wb firstSlice lm0 with h | h
        · rw [← hlmdef] at h
          rw [h]
          rcases hlm0 with h0 | h0
          · left; exact h0
          · right; exact ⟨h0.1, by rw [← hfsLen]; exact h0.2⟩
        · rw [← hlmdef] at h
          right
          exact ⟨h.1, by rw [← hfsLen]; exact le_of_lt h.2⟩
      simp only [Option.some.injEq, TruncResult.ok.injEq] at hrun
      subst hrun
      by_cases hfin : lastMatch = -1
      · rw [hfin] at *
        have hcond : ((-1 : Int) != -1) = false := by simp
        rw [hcond] at *
        constructor
        · show ((String.mk (firstSlice ++ om.data)).data.length : Int) ≤ n
          show ((firstSlice ++ om.data).length : Int) ≤ n
          rw [List.length_append]
          push_cast
          omega
        constructor
        · exact ⟨firstSlice, rfl⟩
        · show (firstSlice ++ om.data).length ≤ v.data.length
          rw [List.length_append]
          omega
      · have hlm2 : 0 ≤ lastMatch ∧ lastMatch ≤ endslice := by
          rcases hrange with h | h
          · exact absurd h hfin
          · exact h
        have hcond : (lastMatch != -1) = true := by simpa using hfin
        rw [hcond]
        simp only [if_true]
        have hslLen : ((jsSlice v.data lastMatch).length : Int) ≤ lastMatch :=
          jsSlice_length_le v.data lastMatch hlm2.1
        constructor
        · show (((jsSlice v.data lastMatch) ++ om.data).length : Int) ≤ n
          rw [List.length_append]
          push_cast
          omega
        constructor
        · exact ⟨jsSlice v.data lastMatch, rfl⟩
        · show ((jsSlice v.data lastMatch) ++ om.data).length ≤ v.data.length
          rw [List.length_append]
          omega

/-- C1 (counterexample): the claim fails when the omission's codepoint count
exceeds the merged length.  With `length = 2`, `omission = "....."` (five
codepoints) — options passing validation — and the six-codepoint input
`"aaaaaa"` (which exceeds the length), the negative end slice of
`Array.prototype.slice` keeps all but the last three codepoints, so
`truncate` returns `"aaa....."` with eight codepoints: more than `length`
and more than the input's codepoint count. -/
theorem truncate_length_bound_cex :
    validationError (mergeOptions ⟨some (.numV 2), some (.strV "....."), none, none, none⟩)
      = none ∧
    truncate (.strV "aaaaaa") ⟨some (.numV 2), some (.strV "....."), none, none, none⟩
      (fun _ => none) 0 = some (.ok "aaa.....") ∧
    2 < ("aaaaaa".data.length : Int) ∧
    ¬ (("aaa.....".data.length : Int) ≤ 2) ∧
    ¬ ("aaa.....".data.length ≤ "aaaaaa".data.length) := by decide

/-- C1 (amended): for every string value whose codepoint count exceeds the
merged numeric length, every options object passing validation, and every
run of `truncate` returning a string — over any model of the regex delegate
whose matchers satisfy the JS exec bounds — provided additionally that the
omission string's codepoint count is at most `length`, the returned
string's codepoint count is at most `length`, the result ends with the
omission string, and the result's codepoint count does not exceed the
input value's. -/
theorem truncate_length_bound (v om : String) (n : Int) (opts : TruncOptions)
    (compile : String → Option GMatcher) (fuel : Nat) (r : String)
    (hvalid : ∀ src gm, compile src = some gm → gm.Valid)
    (hL : (mergeOptions opts).length = .numV n)
    (hO : (mergeOptions opts).omission = .strV om)
    (hcount : n < (v.data.length : Int))
    (homlen : (om.data.length : Int) ≤ n)
    (hrun : truncate (.strV v) opts compile fuel = some (.ok r)) :
    (r.data.length : Int) ≤ n ∧ om.data.IsSuffix r.data ∧ r.data.length ≤ v.data.length := by
  cases hval : validationError (mergeOptions opts) with
  | some msg =>
    rw [truncate_of_validationError_some v opts compile fuel msg hval] at hrun
    exact absurd hrun (by simp)
  | none =>
    rw [truncate_strV_eq v opts compile fuel n om hL hO hval] at hrun
    exact truncateCore_bound v n om _ _ compile fuel r hvalid hcount homlen hrun

/-- C1 (witness): the amended bound applied to `truncate "aaaaaaaaaa"`
with `length = 5` and `omission = "..."`, which returns `"aa..."`. -/
theorem truncate_length_bound_witness :
    (("aa...".data.length : Int) ≤ 5) ∧ "...".data.IsSuffix "aa...".data ∧
      "aa...".data.length ≤ "aaaaaaaaaa".data.length :=
  truncate_length_bound "aaaaaaaaaa" "..." 5
    ⟨some (.numV 5), some (.strV "..."), none, none, none⟩ (fun _ => none) 0 "aa..."
    (fun _ _ h => Option.noConfusion h) rfl rfl (by decide) (by decide) (by decide)

/-- C6 (counterexample): the claim omits the option validation, which runs
before the length check.  For the one-codepoint string `"a"` and options
`{length: 5, omission: 7}` the codepoint count is within the merged length,
yet `truncate` throws the omission `TypeError` instead of returning the
string unchanged. -/
theorem truncate_identity_cex :
    (("a".data.length : Int) ≤ 5) ∧
    truncate (.strV "a") ⟨some (.numV 5), some (.numV 7), none, none, none⟩ (fun _ => none) 0
      = some (.typeError "Expected a string. Received options.omission=7 Type: number") ∧
    truncate (.strV "a") ⟨some (.numV 5), some (.numV 7), none, none, none⟩ (fun _ => none) 0
      ≠ some (.ok "a") := by decide

/-- C6 (amended): for every string whose codepoint count is at most the
merged numeric length and every options object passing validation,
`truncate` returns the string unchanged — with no omission marker appended
and independent of the regex delegate and fuel, hence with no word-break
processing. -/
theorem truncate_identity (v : String) (opts : TruncOptions)
    (compile : String → Option GMatcher) (fuel : Nat) (n : Int)
    (hL : (mergeOptions opts).length = .numV n)
    (hval : validationError (mergeOptions opts) = none)
    (hlen : (v.data.length : Int) ≤ n) :
    truncate (.strV v) opts compile fuel = some (.ok v) := by
  obtain ⟨om, hO⟩ := typeofStr_eq_string (validationError_none_inv hval).2.1
  rw [truncate_strV_eq v opts compile fuel n om hL hO hval]
  simp only [truncateCore]
  rw [if_pos hlen]

/-- C4 (counterexample): the claim's "present but not a string" condition is
too strong — the source guards the `wordbreak` and `wordbreakregex` checks
by JS truthiness.  The options `{wordbreak: 0}` carry a present, non-string,
falsy `wordbreak`, yet `truncate` throws no `TypeError` and returns the
value unchanged. -/
theorem truncate_validation_guards_cex :
    (mergeOptions ⟨none, none, some (.numV 0), none, none⟩).wordbreak = .numV 0 ∧
    (JSVal.numV 0).typeofStr ≠ "string" ∧
    truncate (.strV "abc") ⟨none, none, some (.numV 0), none, none⟩ (fun _ => none) 0
      = some (.ok "abc") := by decide

/-- C4 (amended): for every defined string value, whenever the merged length
is not a number, or the merged omission is not a string, or `wordbreak` is
truthy but not a string, or `wordbreakregex` is truthy but not a string,
`truncate` fails with a `TypeError` whose message names the offending merged
field together with its received value and received type, and no truncation
result is produced. -/
theorem truncate_validation_guards (v : String) (opts : TruncOptions)
    (compile : String → Option GMatcher) (fuel : Nat)
    (h : (mergeOptions opts).length.typeofStr ≠ "number" ∨
         (mergeOptions opts).omission.typeofStr ≠ "string" ∨
         ((mergeOptions opts).wordbreak.truthy = true ∧
           (mergeOptions opts).wordbreak.typeofStr ≠ "string") ∨
         ((mergeOptions opts).wordbreakregex.truthy = true ∧
           (mergeOptions opts).wordbreakregex.typeofStr ≠ "string")) :
    ∃ field expected bad,
      ((field = "length" ∧ bad = (mergeOptions opts).length) ∨
        (field = "omission" ∧ bad = (mergeOptions opts).omission) ∨
        (field = "wordbreak" ∧ bad = (mergeOptions opts).wordbreak) ∨
        (field = "wordbreakregex" ∧ bad = (mergeOptions opts).wordbreakregex)) ∧
      bad.typeofStr ≠ expected ∧ (expected = "number" ∨ expected = "string") ∧
      truncate (.strV v) opts compile fuel = some (.typeError
        ("Expected a " ++ expected ++ ". Received options." ++ field ++ "="
          ++ bad.display ++ " Type: " ++ bad.typeofStr)) := by
  by_cases h1 : (mergeOptions opts).length.typeofStr = "number"
  case neg =>
    refine ⟨"length", "number", (mergeOptions opts).length, Or.inl ⟨rfl, rfl⟩, h1, Or.inl rfl, ?_⟩
    have hve : validationError (mergeOptions opts) = some
        ("Expected a number. Received options.length=" ++ (mergeOptions opts).length.display
          ++ " Type: " ++ (mergeOptions opts).length.typeofStr) := by
      unfold validationError
      rw [if_pos (by simpa using h1)]
    rw [truncate_of_validationError_some v opts compile fuel _ hve]
    have hpre : ("Expected a " ++ "number" ++ ". Received options." ++ "length" ++ "=" : String)
        = "Expected a number. Received options.length=" := by decide
    rw [hpre]
  case pos =>
  by_cases h2 : (mergeOptions opts).omission.typeofStr = "string"
  case neg =>
    refine ⟨"omission", "string", (mergeOptions opts).omission, Or.inr (Or.inl ⟨rfl, rfl⟩),
      h2, Or.inr rfl, ?_⟩
    have hve : validationError (mergeOptions opts) = some
        ("Expected a string. Received options.omission=" ++ (mergeOptions opts).omission.display
          ++ " Type: " ++ (mergeOptions opts).omission.typeofStr) := by
      unfold validationError
      rw [if_neg (by simpa using h1), if_pos (by simpa using h2)]
    rw [truncate_of_validationError_some v opts compile fuel _ hve]
    have hpre : ("Expected a " ++ "string" ++ ". Received options." ++ "omission" ++ "=" : String)
        = "Expected a string. Received options.omission=" := by decide
    rw [hpre]
  case pos =>
  by_cases h3 : (mergeOptions opts).wordbreak.truthy = true ∧
      (mergeOptions opts).wordbreak.typeofStr ≠ "string"
  case pos =>
    refine ⟨"wordbreak", "string", (mergeOptions opts).wordbreak,
      Or.inr (Or.inr (Or.inl ⟨rfl, rfl⟩)), h3.2, Or.inr rfl, ?_⟩
    have hve : validationError (mergeOptions opts) = some
        ("Expected a string. Received options.wordbreak=" ++ (mergeOptions opts).wordbreak.display
          ++ " Type: " ++ (mergeOptions opts).wordbreak.typeofStr) := by
      unfold validationError
      rw [if_neg (by simpa using h1), if_neg (by simpa using h2),
        if_pos (by simp [h3.1, bne_iff_ne, h3.2])]
    rw [truncate_of_validationError_some v opts compile fuel _ hve]
    have hpre : ("Expected a " ++ "string" ++ ". Received options." ++ "wordbreak" ++ "=" : String)
        = "Expected a string. Received options.wordbreak=" := by decide
    rw [hpre]
  case neg =>
  by_cases h4 : (mergeOptions opts).wordbreakregex.truthy = true ∧
      (mergeOptions opts).wordbreakregex.typeofStr ≠ "string"
  case pos =>
    refine ⟨"wordbreakregex", "string", (mergeOptions opts).wordbreakregex,
      Or.inr (Or.inr (Or.inr ⟨rfl, rfl⟩)), h4.2, Or.inr rfl, ?_⟩
    have hve : validationError (mergeOptions opts) = some
        ("Expected a string. Received options.wordbreakregex="
          ++ (mergeOptions opts).wordbreakregex.display
          ++ " Type: " ++ (mergeOptions opts).wordbreakregex.typeofStr) := by
      unfold validationError
      rw [if_neg (by simpa using h1), if_neg (by simpa using h2),
        if_neg (by intro hx; exact h3 (by simpa [Bool.and_eq_true, bne_iff_ne] using hx)),
        if_pos (by simp [h4.1, bne_iff_ne, h4.2])]
    rw [truncate_of_validationError_some v opts compile fuel _ hve]
    have hpre :
        ("Expected a " ++ "string" ++ ". Received options." ++ "wordbreakregex" ++ "=" : String)
        = "Expected a string. Received options.wordbreakregex=" := by decide
    rw [hpre]
  case neg =>
    exact absurd h (by simp [h1, h2, h3, h4])

/-- C4 (witness): the guard theorem applied to options whose merged length
is the string `"x"`, producing the length `TypeError`. -/
theorem truncate_validation_guards_witness :
    ∃ field expected bad,
      ((field = "length" ∧
          bad = (mergeOptions ⟨some (.strV "x"), none, none, none, none⟩).length) ∨
        (field = "omission" ∧
          bad = (mergeOptions ⟨some (.strV "x"), none, none, none, none⟩).omission) ∨
        (field = "wordbreak" ∧
          bad = (mergeOptions ⟨some (.strV "x"), none, none, none, none⟩).wordbreak) ∨
        (field = "wordbreakregex" ∧
          bad = (mergeOptions ⟨some (.strV "x"), none, none, none, none⟩).wordbreakregex)) ∧
      bad.typeofStr ≠ expected ∧ (expected = "number" ∨ expected = "string") ∧
      truncate (.strV "abc") ⟨some (.strV "x"), none, none, none, none⟩ (fun _ => none) 0
        = some (.typeError
          ("Expected a " ++ expected ++ ". Received options." ++ field ++ "="
            ++ bad.display ++ " Type: " ++ bad.typeofStr)) :=
  truncate_validation_guards "abc" ⟨some (.strV "x"), none, none, none, none⟩ (fun _ => none) 0
    (Or.inl (by decide))

/-- C6 (witness): the identity behaviour at `truncate "short" {length: 10}`. -/
theorem truncate_identity_witness :
    truncate (.strV "short") ⟨some (.numV 10), none, none, none, none⟩ (fun _ => none) 0
      = some (.ok "short") :=
  truncate_identity "short" ⟨some (.numV 10), none, none, none, none⟩ (fun _ => none) 0 10
    rfl (by decide) (by decide)

/-- C7 (confirmed): whenever both word-break options are supplied (the
merged `wordbreak` passing validation, the merged `wordbreakregex` a
nonempty string) and the compiled regex's exec loop records a match index
`lm ≥ 0` within the candidate prefix, the result is the prefix cut at that
regex-derived index followed by the omission — an expression independent of
the `wordbreak` value, so the literal separator search is not used. -/
theorem truncate_regex_precedence (v om src : String) (n lm : Int) (opts : TruncOptions)
    (compile : String → Option GMatcher) (fuel : Nat) (gm : GMatcher)
    (hL : (mergeOptions opts).length = .numV n)
    (hO : (mergeOptions opts).omission = .strV om)
    (hR : (mergeOptions opts).wordbreakregex = .strV src)
    (hsrc : src ≠ "")
    (hwb : ¬((mergeOptions opts).wordbreak.truthy = true ∧
      (mergeOptions opts).wordbreak.typeofStr ≠ "string"))
    (hcount : n < (v.data.length : Int))
    (hcompile : compile src = some gm)
    (hloop : execLoop gm ((jsSlice v.data (n - (om.data.length : Int))).map normChar) fuel 0 (-1)
      = some lm)
    (hlm : 0 ≤ lm) :
    truncate (.strV v) opts compile fuel =
      some (.ok (String.mk (jsSlice v.data lm ++ om.data))) := by
  have hval : validationError (mergeOptions opts) = none := by
    unfold validationError
    rw [if_neg (by simp [hL, JSVal.typeofStr]),
      if_neg (by simp [hO, JSVal.typeofStr]),
      if_neg (by intro hx; exact hwb (by simpa [Bool.and_eq_true, bne_iff_ne] using hx)),
      if_neg (by simp [hR, JSVal.typeofStr])]
  rw [truncate_strV_eq v opts compile fuel n om hL hO hval]
  have hreg : regexLastMatch (mergeOptions opts).wordbreakregex
      ((jsSlice v.data (n - (om.data.length : Int))).map normChar) compile fuel
      = some (.ok lm) := by
    rw [hR, regexLastMatch]
    rw [if_pos (by simp [JSVal.truthy, JSVal.typeofStr, hsrc])]
    rw [hcompile]
    change (execLoop gm ((jsSlice v.data (n - (om.data.length : Int))).map normChar)
      fuel 0 (-1)).map Except.ok = some (Except.ok lm)
    rw [hloop]
    rfl
  rw [truncateCore_of_regex v n om (mergeOptions opts).wordbreak (mergeOptions opts).wordbreakregex
    compile fuel lm (by omega) hreg]
  have hll : literalLastMatch (mergeOptions opts).wordbreak
      (jsSlice v.data (n - (om.data.length : Int))) lm = lm := by
    cases hwbv : (mergeOptions opts).wordbreak with
    | strV wbs =>
      rw [literalLastMatch]
      rw [if_neg (by
        simp only [Bool.and_eq_true, beq_iff_eq, not_and]
        intro _ hx
        omega)]
    | undefined => rfl
    | null => rfl
    | boolV b => rfl
    | numV m => rfl
    | objV t => rfl
  rw [hll]
  rw [if_pos (by simp only [bne_iff_ne, ne_eq]; omega)]

/-- C7 (witness): with `length = 10`, `omission = "..."`, literal
`wordbreak = " "`, and a regex matching single spaces, the prefix
`"ab cd e"` has its last regex match at index 5, and truncate of
`"ab cd efghijklmnop"` returns `"ab cd..."` — the regex-derived cut. -/
theorem truncate_regex_precedence_witness :
    truncate (.strV "ab cd efghijklmnop")
      ⟨some (.numV 10), some (.strV "..."), some (.strV " "), some (.strV "[\\s]"), none⟩
      (fun _ => some (charClassMatcher (fun c => c = ' '))) 10 =
      some (.ok (String.mk (jsSlice "ab cd efghijklmnop".data 5 ++ "...".data))) :=
  truncate_regex_precedence "ab cd efghijklmnop" "..." "[\\s]" 10 5
    ⟨some (.numV 10), some (.strV "..."), some (.strV " "), some (.strV "[\\s]"), none⟩
    (fun _ => some (charClassMatcher (fun c => c = ' '))) 10
    (charClassMatcher (fun c => c = ' '))
    rfl rfl rfl (by decide) (by decide) (by decide) rfl (by decide) (by decide)

/-- C8 (counterexample): the repeated-match search does not terminate for
every valid regex.  The model of the nullable regex `/x*/gu` on an `x`-free
prefix yields the empty match at the current `lastIndex` forever, so with
`wordbreakregex = "x*"` on a 35-codepoint input no fuel makes `truncate`
return: the exec loop never reaches exhaustion. -/
theorem truncate_regexloop_divergence_cex :
    ¬ truncateTerminates (.strV "aaaaaaaaaaaaaaaaaaaaaaaaaaaaaaaaaaa")
      ⟨none, none, none, some (.strV "x*"), none⟩ (fun _ => some emptyStarMatcher) := by
  rintro ⟨fuel, hne⟩
  apply hne
  rw [truncate_strV_eq "aaaaaaaaaaaaaaaaaaaaaaaaaaaaaaaaaaa"
    ⟨none, none, none, some (.strV "x*"), none⟩ (fun _ => some emptyStarMatcher) fuel 30 "..."
    rfl rfl (by decide)]
  simp only [truncateCore]
  rw [if_neg (by decide)]
  have hreg : regexLastMatch
      (mergeOptions (⟨none, none, none, some (.strV "x*"), none⟩ : TruncOptions)).wordbreakregex
      ((jsSlice ("aaaaaaaaaaaaaaaaaaaaaaaaaaaaaaaaaaa" : String).data
        (30 - (("..." : String).data.length : Int))).map normChar)
      (fun _ => some emptyStarMatcher) fuel = none := by
    show regexLastMatch (.strV "x*")
      ((jsSlice ("aaaaaaaaaaaaaaaaaaaaaaaaaaaaaaaaaaa" : String).data
        (30 - (("..." : String).data.length : Int))).map normChar)
      (fun _ => some emptyStarMatcher) fuel = none
    rw [regexLastMatch]
    rw [if_pos (by decide)]
    change (execLoop emptyStarMatcher
      ((jsSlice ("aaaaaaaaaaaaaaaaaaaaaaaaaaaaaaaaaaa" : String).data
        (30 - (("..." : String).data.length : Int))).map normChar) fuel 0 (-1)).map Except.ok
      = none
    rw [emptyStar_execLoop_none _ fuel 0 (-1) (by omega)]
    rfl
  rw [hreg]

/-- C8 (amended): for every compiled wordbreakregex matcher satisfying the
JS exec bounds and never yielding an empty match, the repeated-match search
of `truncate` terminates — fuel one more than the normalised prefix's
length suffices — and on termination the recorded word-break index is the
index of the last match of the exec chain within the prefix, `-1` when the
regex never matched. -/
theorem truncate_regexloop_terminates (gm : GMatcher) (s : List Char)
    (hv : gm.Valid) (hp : gm.Progressive) :
    ∃ out, execLoop gm s (s.length + 1) 0 (-1) = some out ∧
      out = (((matchChain gm s (s.length + 1) 0).getLast?).map Int.ofNat).getD (-1) :=
  ⟨_, execLoop_eq_chain gm s hv hp (s.length + 1) 0 (-1) (by omega) (by omega), rfl⟩

/-- C8 (witness): the termination theorem applied to the single-space
character-class matcher over the prefix `"ab cd"`. -/
theorem truncate_regexloop_terminates_witness :
    ∃ out, execLoop (charClassMatcher (fun c => c = ' ')) "ab cd".data
        ("ab cd".data.length + 1) 0 (-1) = some out ∧
      out = (((matchChain (charClassMatcher (fun c => c = ' ')) "ab cd".data
        ("ab cd".data.length + 1) 0).getLast?).map Int.ofNat).getD (-1) :=
  truncate_regexloop_terminates (charClassMatcher (fun c => c = ' ')) "ab cd".data
    (charClassMatcher_valid (fun c => c = ' ')) (charClassMatcher_progressive (fun c => c = ' '))

/-- C2 (counterexample): `moment` and `momentDuration` have no undefined
guard.  Called with first argument undefined, `moment` invokes the momentjs
delegate and returns the delegate's value (a current-time moment object in
real JS), not undefined. -/
theorem undefined_propagation_cex :
    moment [.undefined] (fun _ => .ok (.objV "moment-now")) = .ok (.objV "moment-now") ∧
    (Except.ok (JSVal.objV "moment-now") : JSOut) ≠ .ok .undefined ∧
    momentDuration [.undefined] (fun _ => .ok (.objV "duration-zero")) = .ok (.objV "duration-zero")
    := by decide

/-- C2 (amended): every registered function except `moment` and
`momentDuration`, called with its first argument undefined, returns
undefined for every instantiation of its delegates — so no delegate is
invoked and no error raised; `moment` and `momentDuration` instead forward
their argument list to the momentjs delegate unconditionally. -/
theorem undefined_propagation
    (options template base : JSVal) (topts : TruncOptions) (uopts : UAsciiOptions)
    (convert render : JSVal → JSVal → Except String JSVal)
    (uuidvalidate : JSVal → Bool)
    (encode decode : JSVal → JSVal → Except String JSVal)
    (mkTag : JSVal → LangTag) (countries languagesAll : String → JSVal)
    (urlPipeline pathParse : JSVal → Except String JSVal)
    (momentjs momentjsDuration : List JSVal → Except String JSVal)
    (compile : String → Option GMatcher) (fuel : Nat)
    (foldReplacing : JSVal → JSVal → JSVal) (foldMaintaining : JSVal → JSVal) :
    htmltotext .undefined options convert = .ok .undefined ∧
    shortenUuid .undefined base uuidvalidate encode = .ok .undefined ∧
    unshortenUuid .undefined base decode = .ok .undefined ∧
    encodeUuid .undefined base uuidvalidate encode = .ok .undefined ∧
    decodeUuid .undefined base decode = .ok .undefined ∧
    truncate .undefined topts compile fuel = some .undefined ∧
    languageInfo .undefined mkTag countries languagesAll = .ok .undefined ∧
    parseUrl .undefined urlPipeline = .ok .undefined ∧
    parsePath .undefined pathParse = .ok .undefined ∧
    mustache .undefined template render = .ok .undefined ∧
    unicodeToASCII .undefined uopts foldReplacing foldMaintaining = .ok .undefined ∧
    moment [.undefined] momentjs = (momentjs [.undefined]).mapError .delegateRaw ∧
    momentDuration [.undefined] momentjsDuration
      = (momentjsDuration [.undefined]).mapError .delegateRaw :=
  ⟨rfl, rfl, rfl, rfl, rfl, rfl, rfl, rfl, rfl, rfl, rfl, rfl, rfl⟩

/-- C3 (counterexample): registration on a valid host binds thirteen named
functions, not "between nine and twelve". -/
theorem register_function_count_cex :
    registerWithJSONATA (some ⟨true⟩) = .ok registrations ∧
    registrations.length = 13 ∧
    ¬ (9 ≤ registrations.length ∧ registrations.length ≤ 12) := by decide

/-- C3 (amended): `registerWithJSONATA` applied to undefined and to a host
lacking the `registerFunction` capability fails with the same
`TypeError('Invalid JSONata Expression')`; applied to a valid host it
succeeds, binding a fixed set of thirteen distinct named functions, each
bound exactly once via one registration call per function. -/
theorem register_guard_and_bindings :
    registerWithJSONATA none = .error (.typeError "Invalid JSONata Expression") ∧
    registerWithJSONATA (some ⟨false⟩) = .error (.typeError "Invalid JSONata Expression") ∧
    registerWithJSONATA none = registerWithJSONATA (some ⟨false⟩) ∧
    registerWithJSONATA (some ⟨true⟩) = .ok registrations ∧
    (registrations.map RegEntry.name).Nodup ∧
    (registrations.map RegEntry.fn).Nodup ∧
    registrations.length = 13 := by decide

/-- C5 (counterexample): `unshortenUuid` performs no try/catch around the
decoder delegate, so a native decoder failure escapes to the caller as the
delegate's raw error rather than any descriptive error of the library's
own. -/
theorem delegate_error_wrapping_cex :
    unshortenUuid (.strV "zzz") (.strV "base36") (fun _ _ => .error "RawDecoderFailure")
      = .error (.delegateRaw "RawDecoderFailure") ∧
    (Except.error (JSErr.delegateRaw "RawDecoderFailure") : JSOut)
      ≠ .error (.error "RawDecoderFailure") := by decide

/-- C5 (amended): `parseUrl` catches every pipeline failure and re-raises
`Error('Invalid URL')`, and `languageInfo` raises its own descriptive
`Invalid RFC5646 Tag` error from the delegate's invalid flag; but
`unshortenUuid`/`decodeUuid` do not wrap the decoder delegate — when the
base name is accepted, a decoder failure propagates to the caller
unchanged. -/
theorem delegate_error_wrapping (value base : JSVal) (e : String)
    (urlPipeline : JSVal → Except String JSVal)
    (mkTag : JSVal → LangTag) (countries languagesAll : String → JSVal)
    (decode : JSVal → JSVal → Except String JSVal)
    (hv : value ≠ .undefined) :
    (urlPipeline value = .error e →
      parseUrl value urlPipeline = .error (.error "Invalid URL")) ∧
    ((mkTag value).invalid = true →
      languageInfo value mkTag countries languagesAll
        = .error (.error ("Invalid RFC5646 Tag. Value: " ++ value.display))) ∧
    (isValidBasexName (jsDefaultArg base (.strV "base36")) = true →
      decode (jsDefaultArg base (.strV "base36")) value = .error e →
      unshortenUuid value base decode = .error (.delegateRaw e)) := by
  refine ⟨?_, ?_, ?_⟩
  · intro hu
    unfold parseUrl
    rw [if_neg hv, hu]
  · intro ht
    unfold languageInfo
    rw [if_neg hv]
    simp only [ht, if_true]
  · intro hb hd
    unfold unshortenUuid
    rw [if_neg hv, if_neg (by simp [hb]), hd]
    rfl

/-- C5 (witness): the amended behaviour at concrete failing delegates. -/
theorem delegate_error_wrapping_witness :
    parseUrl (.strV "no-scheme") (fun _ => .error "TypeError: Invalid URL: no-scheme")
      = .error (.error "Invalid URL") ∧
    languageInfo (.strV "bad tag!!") (fun _ => ⟨true, none, "en"⟩) (fun _ => .null)
      (fun _ => .null) = .error (.error "Invalid RFC5646 Tag. Value: bad tag!!") ∧
    unshortenUuid (.strV "zz12") .undefined (fun _ _ => .error "decoder blew up")
      = .error (.delegateRaw "decoder blew up") :=
  ⟨(delegate_error_wrapping (.strV "no-scheme") (.strV "base36")
      "TypeError: Invalid URL: no-scheme" (fun _ => .error "TypeError: Invalid URL: no-scheme")
      (fun _ => ⟨false, none, "en"⟩) (fun _ => .null) (fun _ => .null)
      (fun _ _ => .ok .null) (by decide)).1 rfl,
    (delegate_error_wrapping (.strV "bad tag!!") (.strV "base36") "unused"
      (fun _ => .ok .null) (fun _ => ⟨true, none, "en"⟩) (fun _ => .null) (fun _ => .null)
      (fun _ _ => .ok .null) (by decide)).2.1 rfl,
    (delegate_error_wrapping (.strV "zz12") .undefined "decoder blew up"
      (fun _ => .ok .null) (fun _ => ⟨false, none, "en"⟩) (fun _ => .null) (fun _ => .null)
      (fun _ _ => .error "decoder blew up") (by decide)).2.2 (by decide) rfl⟩

/-- C9 (confirmed): `encodeUuid` and `decodeUuid` are exact aliases — for
every value, base and delegate instantiation they return precisely the
result of `shortenUuid` resp. `unshortenUuid` on the same arguments. -/
theorem encode_decode_alias (value base : JSVal) (uuidvalidate : JSVal → Bool)
    (encode decode : JSVal → JSVal → Except String JSVal) :
    encodeUuid value base uuidvalidate encode = shortenUuid value base uuidvalidate encode ∧
    decodeUuid value base decode = unshortenUuid value base decode := by
  have hidem : jsDefaultArg (jsDefaultArg base (.strV "base36")) (.strV "base36")
      = jsDefaultArg base (.strV "base36") := by
    unfold jsDefaultArg
    by_cases hb : base = .undefined
    · rw [if_pos hb]
      rfl
    · rw [if_neg hb, if_neg hb]
  constructor
  · show shortenUuid value (jsDefaultArg base (.strV "base36")) uuidvalidate encode
      = shortenUuid value base uuidvalidate encode
    unfold shortenUuid
    by_cases hv : value = .undefined
    · rw [if_pos hv, if_pos hv]
    · rw [if_neg hv, if_neg hv, hidem]
  · show unshortenUuid value (jsDefaultArg base (.strV "base36")) decode
      = unshortenUuid value base decode
    unfold unshortenUuid
    by_cases hv : value = .undefined
    · rw [if_pos hv, if_pos hv]
    · rw [if_neg hv, if_neg hv, hidem]

/-- C10 (confirmed): for every defined value, `unshortenUuid` validates only
the base name — failing with the `Invalid basex` message listing the nine
supported bases — and otherwise hands the value straight to the decoder
delegate with no format validation, so it never raises an `Invalid UUID`
error of its own. -/
theorem unshortenUuid_only_basex_guard (value base : JSVal)
    (decode : JSVal → JSVal → Except String JSVal)
    (hv : value ≠ .undefined) :
    (unshortenUuid value base decode =
      if isValidBasexName (jsDefaultArg base (.strV "base36"))
      then (decode (jsDefaultArg base (.strV "base36")) value).mapError JSErr.delegateRaw
      else .error (.error invalidBasexMsg)) ∧
    invalidBasexMsg =
      "Invalid basex. Valid values: base2,base10,base16,base32,base36,base58,base62,base64,base64url"
    ∧ unshortenUuid value base decode ≠ .error (.error "Invalid UUID") := by
  have hmain : unshortenUuid value base decode =
      if isValidBasexName (jsDefaultArg base (.strV "base36"))
      then (decode (jsDefaultArg base (.strV "base36")) value).mapError JSErr.delegateRaw
      else .error (.error invalidBasexMsg) := by
    unfold unshortenUuid
    rw [if_neg hv]
    cases hb : isValidBasexName (jsDefaultArg base (.strV "base36")) with
    | true => simp [hb]
    | false => simp [hb]
  refine ⟨hmain, by decide, ?_⟩
  rw [hmain]
  by_cases hb : isValidBasexName (jsDefaultArg base (.strV "base36")) = true
  · rw [if_pos hb]
    cases hd : decode (jsDefaultArg base (.strV "base36")) value with
    | ok w => simp [Except.mapError]
    | error err => simp [Except.mapError]
  · rw [if_neg hb]
    simp only [ne_eq, Except.error.injEq, JSErr.error.injEq]
    decide

/-- C10 (witness): the guard characterisation at a defined value with the
default base and a successful decoder. -/
theorem unshortenUuid_only_basex_guard_witness :
    (unshortenUuid (.strV "1m5o") .undefined (fun _ _ => .ok (.strV "decoded-uuid")) =
      if isValidBasexName (jsDefaultArg .undefined (.strV "base36"))
      then (Except.ok (JSVal.strV "decoded-uuid") : Except String JSVal).mapError
        JSErr.delegateRaw
      else .error (.error invalidBasexMsg)) ∧
    invalidBasexMsg =
      "Invalid basex. Valid values: base2,base10,base16,base32,base36,base58,base62,base64,base64url"
    ∧ unshortenUuid (.strV "1m5o") .undefined (fun _ _ => .ok (.strV "decoded-uuid"))
      ≠ .error (.error "Invalid UUID") :=
  unshortenUuid_only_basex_guard (.strV "1m5o") .undefined
    (fun _ _ => .ok (.strV "decoded-uuid")) (by decide)

end JsonataExt
